import Mathlib

/-!
Verification of `examples/cv/mnist_lenet5_image_classification_pure_pytorch.py`.

The script wires a dataset, model, loss, optimizer and dataloader together and
runs a single manual training loop.  The external framework calls (tensor math,
autograd, optimizer update rule) are uninterpreted here: each library call the
script makes is recorded as an event carrying the provenance of its arguments
(which batch the images, targets, predictions, loss and gradients came from),
and the optimizer's gradient buffer is threaded explicitly as the list of batch
indices whose loss gradients it currently holds.  Python's `%` on ints is
floored modulus (`Int.fmod`) and raises `ZeroDivisionError` on a zero divisor,
which we model with `Except`-style error values.
-/

/-- A Python runtime error that the script can raise. -/
inductive PyErr where
  | zeroDivisionError : PyErr
deriving DecidableEq, Repr

/-- Python's `a % b`: floored modulus, raising `ZeroDivisionError` when `b = 0`
(source line 84 evaluates `step % cfg.freq`). -/
def pyMod (a b : Int) : Except PyErr Int :=
  if b = 0 then .error .zeroDivisionError else .ok (Int.fmod a b)

/-- `MNISTDatasetConfig(width=32, height=32)` as instantiated on source line 45. -/
structure MNISTDatasetConfig where
  width : Nat := 32
  height : Nat := 32
deriving DecidableEq, Repr

/-- `DataLoaderConfig(batch_size=128, shuffle=True)` as instantiated on source
line 46.  The batch size is a non-negative count of samples. -/
structure DataLoaderConfig where
  batch_size : Nat := 128
  shuffle : Bool := true
deriving DecidableEq, Repr

/-- The structured config `AppConfig` of the application (source lines 30-48).
The learning rate is the exact rational denoted by the Python literal `0.001`. -/
structure AppConfig where
  name : String := "Training of a LeNet-5 Neural Module using a custom training loop written in pure PyTorch."
  dataset : MNISTDatasetConfig := {}
  dataloader : DataLoaderConfig := {}
  lr : ℚ := 0.001
  freq : Int := 10
deriving DecidableEq, Repr

/-- One observable action of `main`.  Setup events record the construction of
the five components (source lines 59-69); loop events record the library calls
of one loop iteration (source lines 72-91), tagged with the provenance of their
tensor arguments: `forward s` is `lenet5(images=images)` on the images of batch
`s`, `lossOf p t` is `nll_loss` applied to predictions from batch `p` and
targets from batch `t`, `logStep s l` prints step index `s` and the loss of
batch `l`, `backward l` backpropagates the loss of batch `l`, and `optStep g`
is `opt.step()` performed while the optimizer holds gradients of the losses of
the batches listed in `g`. -/
inductive Ev where
  | mkDataset (width height : Nat)
  | mkModel
  | mkLoss
  | mkOptimizer (lr : ℚ)
  | mkDataLoader (batch_size : Nat) (shuffle : Bool)
  | zeroGrad (step : Nat)
  | forward (step : Nat)
  | lossOf (predFrom tgtFrom : Nat)
  | logStep (step lossFrom : Nat)
  | backward (lossFrom : Nat)
  | optStep (gradsFrom : List Nat)
deriving DecidableEq, Repr

/-- Whether an event is one of the five component constructions that precede
the training loop. -/
def Ev.isSetup : Ev → Bool
  | .mkDataset _ _ => true
  | .mkModel => true
  | .mkLoss => true
  | .mkOptimizer _ => true
  | .mkDataLoader _ _ => true
  | _ => false

/-- Whether an event is the periodic status print of source line 85. -/
def Ev.isLog : Ev → Bool
  | .logStep _ _ => true
  | _ => false

/-- Whether an event is the forward pass of source line 78. -/
def Ev.isForward : Ev → Bool
  | .forward _ => true
  | _ => false

/-- The kind of a loop event, used to state the order of the steps of the loop
body independently of their arguments. -/
inductive EvKind where
  | kSetup
  | kZeroGrad
  | kForward
  | kLoss
  | kLog
  | kBackward
  | kOptStep
deriving DecidableEq, Repr

/-- The kind tag of an event. -/
def Ev.kind : Ev → EvKind
  | .mkDataset _ _ => .kSetup
  | .mkModel => .kSetup
  | .mkLoss => .kSetup
  | .mkOptimizer _ => .kSetup
  | .mkDataLoader _ _ => .kSetup
  | .zeroGrad _ => .kZeroGrad
  | .forward _ => .kForward
  | .lossOf _ _ => .kLoss
  | .logStep _ _ => .kLog
  | .backward _ => .kBackward
  | .optStep _ => .kOptStep

/-- One iteration of the training loop (source lines 74-91) at step index
`step`, entered with the optimizer holding gradients from the batches `g0`.
Returns the events emitted, the gradient buffer on exit, and `some e` when the
iteration raised error `e` (in which case only the events preceding the raise
are emitted).  Line by line: `opt.zero_grad()` clears the buffer;
`lenet5(images=images)` and `nll_loss(predictions=predictions,
targets=targets)` use the current batch; `step % cfg.freq` may raise; on `0`
the status is logged; `loss.backward()` accumulates the current loss's
gradients into the buffer; `opt.step()` updates the parameters from the
buffer. -/
def loopBody (freq : Int) (step : Nat) (g0 : List Nat) :
    List Ev × List Nat × Option PyErr :=
  let g1 : List Nat := []
  let evA := [Ev.zeroGrad step, Ev.forward step, Ev.lossOf step step]
  match pyMod step freq with
  | .error e => (evA, g1, some e)
  | .ok r =>
      let evB := if r = 0 then [Ev.logStep step step] else []
      let g2 := g1 ++ [step]
      (evA ++ evB ++ [Ev.backward step, Ev.optStep g2], g2, none)

/-- Iterations `0, 1, ..., n-1` of the training loop run in order, threading
the optimizer's gradient buffer, stopping at the first raised error. -/
def runSteps (freq : Int) : Nat → List Nat → List Ev × List Nat × Option PyErr
  | 0, g => ([], g, none)
  | n + 1, g =>
      match runSteps freq n g with
      | (evs, g1, none) =>
          match loopBody freq n g1 with
          | (evs2, g2, err) => (evs ++ evs2, g2, err)
      | (evs, g1, some e) => (evs, g1, some e)

/-- Fuel-driven splitting of a dataset into consecutive batches of `bs`
samples; the fuel bounds the recursion depth and is instantiated with the
length of the list, which suffices whenever `1 ≤ bs`. -/
def batchesAux (bs : Nat) : Nat → List Nat → List (List Nat)
  | _, [] => []
  | 0, _ :: _ => []
  | fuel + 1, x :: xs => (x :: xs).take bs :: batchesAux bs fuel ((x :: xs).drop bs)

/-- The batches produced by `DataLoader(dataset=mnist_ds, **(cfg.dataloader))`
(source line 69) over a dataset listed in iteration order: consecutive groups
of `bs` samples, the last group possibly smaller, none dropped (the config
passes no `drop_last`, so the loader keeps the final partial batch). -/
def dataLoaderBatches (bs : Nat) (ds : List Nat) : List (List Nat) :=
  batchesAux bs ds.length ds

/-- The construction of the five components before the loop (source lines
58-69), in source order: `MNISTDataset(cfg.dataset)`, `LeNet5()`, `NLLLoss()`,
`optim.Adam(lenet5.parameters(), lr=cfg.lr)`, and
`DataLoader(dataset=mnist_ds, **(cfg.dataloader))`. -/
def setupEvents (cfg : AppConfig) : List Ev :=
  [Ev.mkDataset cfg.dataset.width cfg.dataset.height,
   Ev.mkModel, Ev.mkLoss, Ev.mkOptimizer cfg.lr,
   Ev.mkDataLoader cfg.dataloader.batch_size cfg.dataloader.shuffle]

/-- The full observable behaviour of `main` (source lines 52-92) on a dataset
`ds` listed in the order the dataloader yields its samples: the five
components are constructed in order (lines 59-69), then the loop runs one
iteration per batch of the dataloader (lines 72-91). -/
def mainTrace (cfg : AppConfig) (ds : List Nat) : List Ev × Option PyErr :=
  match runSteps cfg.freq (dataLoaderBatches cfg.dataloader.batch_size ds).length [] with
  | (loopEvs, _, err) => (setupEvents cfg ++ loopEvs, err)


/-- The events one non-raising loop iteration emits, as a function of the step
index: the characterization proved in `loopBody_ok`. -/
def iterEvents (freq : Int) (s : Nat) : List Ev :=
  [Ev.zeroGrad s, Ev.forward s, Ev.lossOf s s] ++
    (if Int.fmod s freq = 0 then [Ev.logStep s s] else []) ++
    [Ev.backward s, Ev.optStep [s]]

/-- The events the whole training loop emits over `n` batches when no
iteration raises. -/
def loopEvents (freq : Int) (n : Nat) : List Ev :=
  ((List.range n).map (iterEvents freq)).flatten

/-- The optimizer's gradient buffer after `n` iterations, starting from `g`. -/
def gradsAfter (g : List Nat) : Nat → List Nat
  | 0 => g
  | m + 1 => [m]

/-- With a zero display frequency, the loop body raises `ZeroDivisionError` at
the status-print guard: the gradient reset, forward pass and loss computation
have happened, but no status print, backpropagation or optimizer step. -/
lemma loopBody_err (step : Nat) (g0 : List Nat) :
    loopBody 0 step g0 =
      ([Ev.zeroGrad step, Ev.forward step, Ev.lossOf step step], [],
        some PyErr.zeroDivisionError) := rfl

/-- With a nonzero display frequency the loop body raises nothing, emits
`iterEvents` and leaves exactly the current batch's gradients. -/
lemma loopBody_ok {freq : Int} (hf : freq ≠ 0) (step : Nat) (g0 : List Nat) :
    loopBody freq step g0 = (iterEvents freq step, [step], none) := by
  unfold loopBody pyMod iterEvents
  rw [if_neg hf]
  rfl

/-- With a nonzero display frequency no iteration raises: the loop over `n`
batches emits the `n` iterations' events in step order and finishes. -/
lemma runSteps_ok {freq : Int} (hf : freq ≠ 0) (n : Nat) (g : List Nat) :
    runSteps freq n g = (loopEvents freq n, gradsAfter g n, none) := by
  induction n with
  | zero => rfl
  | succ n ih =>
      show (match runSteps freq n g with
            | (evs, g1, none) =>
                match loopBody freq n g1 with
                | (evs2, g2, err) => (evs ++ evs2, g2, err)
            | (evs, g1, some e) => (evs, g1, some e)) = _
      rw [ih]
      show (match loopBody freq n (gradsAfter g n) with
            | (evs2, g2, err) => (loopEvents freq n ++ evs2, g2, err)) = _
      rw [loopBody_ok hf]
      show (loopEvents freq n ++ iterEvents freq n, [n], none) = _
      simp [loopEvents, gradsAfter, List.range_succ]

/-- With a zero display frequency and at least one batch, the loop dies on the
very first iteration: only that iteration's pre-guard events are emitted and
the `ZeroDivisionError` propagates. -/
lemma runSteps_err (g : List Nat) : ∀ n, 1 ≤ n →
    runSteps 0 n g = ([Ev.zeroGrad 0, Ev.forward 0, Ev.lossOf 0 0], [],
      some PyErr.zeroDivisionError) := by
  intro n hn
  induction n with
  | zero => omega
  | succ n ih =>
      show (match runSteps 0 n g with
            | (evs, g1, none) =>
                match loopBody 0 n g1 with
                | (evs2, g2, err) => (evs ++ evs2, g2, err)
            | (evs, g1, some e) => (evs, g1, some e)) = _
      rcases Nat.eq_zero_or_pos n with h0 | h1
      · subst h0
        show (match loopBody 0 0 g with
              | (evs2, g2, err) => (([] : List Ev) ++ evs2, g2, err)) = _
        rw [loopBody_err]
        rfl
      · rw [ih h1]

/-- Concatenating the batches reproduces the dataset: no sample is dropped or
duplicated by the batching of the dataloader. -/
lemma batchesAux_flatten {bs : Nat} (hbs : 1 ≤ bs) :
    ∀ (fuel : Nat) (l : List Nat), l.length ≤ fuel →
      (batchesAux bs fuel l).flatten = l := by
  intro fuel
  induction fuel with
  | zero =>
      intro l hl
      rw [List.length_eq_zero.mp (Nat.le_zero.mp hl)]
      rfl
  | succ fuel ih =>
      intro l hl
      cases l with
      | nil => rfl
      | cons x xs =>
          have hdrop : ((x :: xs).drop bs).length ≤ fuel := by
            simp only [List.length_drop, List.length_cons]
            simp only [List.length_cons] at hl
            omega
          show (((x :: xs).take bs :: batchesAux bs fuel ((x :: xs).drop bs)).flatten) = x :: xs
          rw [List.flatten_cons, ih ((x :: xs).drop bs) hdrop, List.take_append_drop]

/-- Every batch is nonempty and no larger than the configured batch size. -/
lemma batchesAux_mem_length {bs : Nat} (hbs : 1 ≤ bs) :
    ∀ (fuel : Nat) (l : List Nat), l.length ≤ fuel →
      ∀ b ∈ batchesAux bs fuel l, 1 ≤ b.length ∧ b.length ≤ bs := by
  intro fuel
  induction fuel with
  | zero =>
      intro l hl b hb
      rw [List.length_eq_zero.mp (Nat.le_zero.mp hl)] at hb
      simp [batchesAux] at hb
  | succ fuel ih =>
      intro l hl b hb
      cases l with
      | nil => simp [batchesAux] at hb
      | cons x xs =>
          have hdrop : ((x :: xs).drop bs).length ≤ fuel := by
            simp only [List.length_drop, List.length_cons]
            simp only [List.length_cons] at hl
            omega
          rcases (by simpa [batchesAux] using hb :
              b = (x :: xs).take bs ∨ b ∈ batchesAux bs fuel ((x :: xs).drop bs)) with h | h
          · subst h
            constructor
            · simp [List.length_take]; omega
            · simp [List.length_take]
          · exact ih ((x :: xs).drop bs) hdrop b h

/-- Batching an empty dataset yields no batches. -/
lemma batchesAux_nil (bs fuel : Nat) : batchesAux bs fuel [] = [] := by
  cases fuel <;> rfl

/-- Batching a nonempty dataset yields at least one batch. -/
lemma batchesAux_ne_nil (bs : Nat) (fuel : Nat) (l : List Nat)
    (hl : l ≠ []) (hfuel : 1 ≤ fuel) : batchesAux bs fuel l ≠ [] := by
  cases fuel with
  | zero => omega
  | succ fuel =>
      cases l with
      | nil => exact absurd rfl hl
      | cons x xs => simp [batchesAux]

/-- Every batch except possibly the last has exactly the configured batch
size. -/
lemma batchesAux_dropLast {bs : Nat} (hbs : 1 ≤ bs) :
    ∀ (fuel : Nat) (l : List Nat), l.length ≤ fuel →
      ∀ b ∈ (batchesAux bs fuel l).dropLast, b.length = bs := by
  intro fuel
  induction fuel with
  | zero =>
      intro l hl b hb
      rw [List.length_eq_zero.mp (Nat.le_zero.mp hl)] at hb
      simp [batchesAux] at hb
  | succ fuel ih =>
      intro l hl b hb
      cases l with
      | nil => simp [batchesAux] at hb
      | cons x xs =>
          have hstep : batchesAux bs (fuel + 1) (x :: xs) =
              (x :: xs).take bs :: batchesAux bs fuel ((x :: xs).drop bs) := rfl
          by_cases hnil : (x :: xs).drop bs = []
          · rw [hstep, hnil, batchesAux_nil] at hb
            simp at hb
          · have hlen : ((x :: xs).drop bs).length ≤ fuel := by
              simp only [List.length_drop, List.length_cons]
              simp only [List.length_cons] at hl
              omega
            have hfuel1 : 1 ≤ fuel := by
              have := List.length_pos.mpr hnil
              omega
            have hne := batchesAux_ne_nil bs fuel _ hnil hfuel1
            rw [hstep, List.dropLast_cons_of_ne_nil hne] at hb
            rcases List.mem_cons.mp hb with h | h
            · subst h
              have hgt : ¬ (x :: xs).length ≤ bs := fun hle =>
                hnil (List.drop_eq_nil_iff.mpr hle)
              simp only [List.length_take, List.length_cons]
              simp only [List.length_cons] at hgt
              omega
            · exact ih ((x :: xs).drop bs) hlen b h

/-- Projection form of `mainTrace`: the setup events followed by the loop
events, paired with the loop's error outcome. -/
lemma mainTrace_eq (cfg : AppConfig) (ds : List Nat) :
    mainTrace cfg ds =
      (setupEvents cfg ++
        (runSteps cfg.freq (dataLoaderBatches cfg.dataloader.batch_size ds).length []).1,
       (runSteps cfg.freq (dataLoaderBatches cfg.dataloader.batch_size ds).length []).2.2) := by
  unfold mainTrace
  rcases h : runSteps cfg.freq (dataLoaderBatches cfg.dataloader.batch_size ds).length [] with ⟨evs, g, err⟩
  rfl

/-- For a positive display frequency the status-print guard of an iteration
is the ordinary remainder condition `step % freq = 0`. -/
lemma iterEvents_of_pos {freq : Int} (hf : 1 ≤ freq) (s : Nat) :
    iterEvents freq s =
      [Ev.zeroGrad s, Ev.forward s, Ev.lossOf s s] ++
        (if (s : Int) % freq = 0 then [Ev.logStep s s] else []) ++
        [Ev.backward s, Ev.optStep [s]] := by
  unfold iterEvents
  rw [Int.fmod_eq_emod _ (by omega)]

/-- The loop over `n + 1` batches is the loop over `n` batches followed by
iteration `n`. -/
lemma loopEvents_succ (freq : Int) (n : Nat) :
    loopEvents freq (n + 1) = loopEvents freq n ++ iterEvents freq n := by
  simp [loopEvents, List.range_succ]

/-- Each iteration performs exactly one forward pass, on its own batch. -/
lemma iterEvents_filter_forward (freq : Int) (s : Nat) :
    (iterEvents freq s).filter Ev.isForward = [Ev.forward s] := by
  unfold iterEvents
  split_ifs <;> rfl

/-- The loop performs exactly one forward pass per batch, in batch order. -/
lemma loopEvents_filter_forward (freq : Int) :
    ∀ n, (loopEvents freq n).filter Ev.isForward = (List.range n).map Ev.forward := by
  intro n
  induction n with
  | zero => rfl
  | succ n ih =>
      rw [loopEvents_succ, List.filter_append, ih, iterEvents_filter_forward,
        List.range_succ, List.map_append]
      rfl

/-- No loop iteration constructs a component. -/
lemma iterEvents_no_setup (freq : Int) (s : Nat) :
    ∀ e ∈ iterEvents freq s, e.isSetup = false := by
  intro e he
  unfold iterEvents at he
  by_cases h : Int.fmod s freq = 0
  · rw [if_pos h] at he
    rcases (by simpa using he :
        e = Ev.zeroGrad s ∨ e = Ev.forward s ∨ e = Ev.lossOf s s ∨
        e = Ev.logStep s s ∨ e = Ev.backward s ∨ e = Ev.optStep [s]) with
      rfl | rfl | rfl | rfl | rfl | rfl <;> rfl
  · rw [if_neg h] at he
    rcases (by simpa using he :
        e = Ev.zeroGrad s ∨ e = Ev.forward s ∨ e = Ev.lossOf s s ∨
        e = Ev.backward s ∨ e = Ev.optStep [s]) with
      rfl | rfl | rfl | rfl | rfl <;> rfl

/-- The training loop never constructs a component. -/
lemma loopEvents_no_setup (freq : Int) (n : Nat) :
    ∀ e ∈ loopEvents freq n, e.isSetup = false := by
  intro e he
  rcases List.mem_flatten.mp he with ⟨l, hl, hel⟩
  rcases List.mem_map.mp hl with ⟨s, _, rfl⟩
  exact iterEvents_no_setup freq s e hel

/-- The training loop never constructs a component, whether or not it
raises. -/
lemma runSteps_no_setup (freq : Int) (n : Nat) (g : List Nat) :
    ∀ e ∈ (runSteps freq n g).1, e.isSetup = false := by
  by_cases hf : freq = 0
  · subst hf
    rcases Nat.eq_zero_or_pos n with h0 | h1
    · subst h0
      intro e he
      simp [runSteps] at he
    · rw [runSteps_err g n h1]
      intro e he
      rcases (by simpa using he :
          e = Ev.zeroGrad 0 ∨ e = Ev.forward 0 ∨ e = Ev.lossOf 0 0) with
        rfl | rfl | rfl <;> rfl
  · rw [runSteps_ok hf]
    exact loopEvents_no_setup freq n

/-- Claim C1: for every batch yielded by the training dataloader, the loop
body executes the fixed five-step sequence gradient reset, forward pass, loss
computation, backpropagation, parameter update, in this order, with no step
skipped or reordered (the status print aside, which is not one of the five
steps). -/
theorem loop_body_five_step_order {freq : Int} (hf : 1 ≤ freq) (step : Nat) (g0 : List Nat) :
    ∃ evs g, loopBody freq step g0 = (evs, g, none) ∧
      (evs.filter (fun e => !e.isLog)).map Ev.kind =
        [EvKind.kZeroGrad, EvKind.kForward, EvKind.kLoss, EvKind.kBackward, EvKind.kOptStep] := by
  refine ⟨iterEvents freq step, [step], loopBody_ok (by omega) step g0, ?_⟩
  unfold iterEvents
  split_ifs <;> rfl

/-- Claim C1, witness at frequency 10, step 0. -/
theorem loop_body_five_step_order_witness :
    ∃ evs g, loopBody 10 0 [] = (evs, g, none) ∧
      (evs.filter (fun e => !e.isLog)).map Ev.kind =
        [EvKind.kZeroGrad, EvKind.kForward, EvKind.kLoss, EvKind.kBackward, EvKind.kOptStep] :=
  loop_body_five_step_order (by norm_num) 0 []

/-- Claim C2: with display frequency `freq >= 1`, an iteration logs a status
message carrying the step index and the current batch's loss if and only if
`step % freq = 0`; any logged message carries exactly the current step index
and the current loss. -/
theorem periodic_status_logging {freq : Int} (hf : 1 ≤ freq) (step : Nat) (g0 : List Nat) :
    ∃ evs g, loopBody freq step g0 = (evs, g, none) ∧
      (Ev.logStep step step ∈ evs ↔ (step : Int) % freq = 0) ∧
      ∀ s l, Ev.logStep s l ∈ evs → s = step ∧ l = step := by
  refine ⟨iterEvents freq step, [step], loopBody_ok (by omega) step g0, ?_, ?_⟩
  · rw [iterEvents_of_pos hf]
    split_ifs with h
    · simp [h]
    · simp [h]
  · rw [iterEvents_of_pos hf]
    intro s l hm
    split_ifs at hm with h
    · simpa using hm
    · simp at hm

/-- Claim C2, witnesses at frequency 10: step 0 (which logs, since the first
batch satisfies `0 % 10 = 0`) and step 3 (which does not). -/
theorem periodic_status_logging_witness :
    (∃ evs g, loopBody 10 0 [] = (evs, g, none) ∧
      (Ev.logStep 0 0 ∈ evs ↔ (0 : Int) % 10 = 0) ∧
      ∀ s l, Ev.logStep s l ∈ evs → s = 0 ∧ l = 0) ∧
    (∃ evs g, loopBody 10 3 [] = (evs, g, none) ∧
      (Ev.logStep 3 3 ∈ evs ↔ (3 : Int) % 10 = 0) ∧
      ∀ s l, Ev.logStep s l ∈ evs → s = 3 ∧ l = 3) :=
  ⟨periodic_status_logging (by norm_num) 0 [], periodic_status_logging (by norm_num) 3 []⟩

/-- Claim C3: the training loop performs exactly one epoch: the dataloader's
batches jointly contain every sample of the finite dataset exactly once, the
loop terminates without error after them, and it performs exactly one forward
pass per batch, in batch order, with no outer epoch loop. -/
theorem single_epoch_full_pass (cfg : AppConfig) (ds : List Nat)
    (hbs : 1 ≤ cfg.dataloader.batch_size) (hf : 1 ≤ cfg.freq) :
    (dataLoaderBatches cfg.dataloader.batch_size ds).flatten = ds ∧
    ∃ evs, mainTrace cfg ds = (evs, none) ∧
      evs.filter Ev.isForward =
        (List.range (dataLoaderBatches cfg.dataloader.batch_size ds).length).map Ev.forward := by
  refine ⟨batchesAux_flatten hbs ds.length ds le_rfl, ?_⟩
  refine ⟨setupEvents cfg ++
    loopEvents cfg.freq (dataLoaderBatches cfg.dataloader.batch_size ds).length, ?_, ?_⟩
  · rw [mainTrace_eq, runSteps_ok (by omega)]
  · rw [List.filter_append, loopEvents_filter_forward]
    have hsetup : (setupEvents cfg).filter Ev.isForward = [] := rfl
    rw [hsetup, List.nil_append]

/-- Claim C3, witness at the default configuration on a 5-sample dataset. -/
theorem single_epoch_full_pass_witness :
    (dataLoaderBatches ({} : AppConfig).dataloader.batch_size (List.range 5)).flatten = List.range 5 ∧
    ∃ evs, mainTrace {} (List.range 5) = (evs, none) ∧
      evs.filter Ev.isForward =
        (List.range (dataLoaderBatches ({} : AppConfig).dataloader.batch_size (List.range 5)).length).map Ev.forward :=
  single_epoch_full_pass {} (List.range 5) (by decide) (by decide)

/-- Claim C4: in every loop iteration the parameter update comes only after
the backpropagation of the current batch's loss: the iteration's events end
with that backpropagation immediately followed by the optimizer step, and no
backpropagation or parameter update occurs earlier in the iteration. -/
theorem opt_step_after_backward {freq : Int} (hf : 1 ≤ freq) (step : Nat) (g0 : List Nat) :
    ∃ evs g pre, loopBody freq step g0 = (evs, g, none) ∧
      evs = pre ++ [Ev.backward step, Ev.optStep [step]] ∧
      (∀ l, Ev.backward l ∉ pre) ∧ ∀ gs, Ev.optStep gs ∉ pre := by
  refine ⟨iterEvents freq step, [step],
    [Ev.zeroGrad step, Ev.forward step, Ev.lossOf step step] ++
      (if Int.fmod step freq = 0 then [Ev.logStep step step] else []),
    loopBody_ok (by omega) step g0, rfl, ?_, ?_⟩
  · intro l
    split_ifs <;> simp
  · intro gs
    split_ifs <;> simp

/-- Claim C4, witness at frequency 10, step 0. -/
theorem opt_step_after_backward_witness :
    ∃ evs g pre, loopBody 10 0 [] = (evs, g, none) ∧
      evs = pre ++ [Ev.backward 0, Ev.optStep [0]] ∧
      (∀ l, Ev.backward l ∉ pre) ∧ ∀ gs, Ev.optStep gs ∉ pre :=
  opt_step_after_backward (by norm_num) 0 []

set_option maxRecDepth 40000 in
/-- Claim C5, counterexample: batching a 130-sample dataset with the default
batch size 128 yields a batch (the final one, of 2 samples) whose size is not
128, because the dataloader keeps the last partial batch. -/
theorem batch_size_not_always_exact :
    ¬ ∀ b ∈ dataLoaderBatches 128 (List.range 130), b.length = 128 := by decide

/-- Claim C5, amended: every batch of the dataloader has between 1 and
`batch_size` samples, and every batch except possibly the last has exactly
`batch_size` samples; only the final batch can be smaller. -/
theorem batches_sized_up_to_last {bs : Nat} (hbs : 1 ≤ bs) (ds : List Nat) :
    (∀ b ∈ dataLoaderBatches bs ds, 1 ≤ b.length ∧ b.length ≤ bs) ∧
    ∀ b ∈ (dataLoaderBatches bs ds).dropLast, b.length = bs :=
  ⟨batchesAux_mem_length hbs ds.length ds le_rfl,
   batchesAux_dropLast hbs ds.length ds le_rfl⟩

/-- Claim C5, amended witness with batch size 128 on a 130-sample dataset. -/
theorem batches_sized_up_to_last_witness :
    (∀ b ∈ dataLoaderBatches 128 (List.range 130), 1 ≤ b.length ∧ b.length ≤ 128) ∧
    ∀ b ∈ (dataLoaderBatches 128 (List.range 130)).dropLast, b.length = 128 :=
  batches_sized_up_to_last (by norm_num) (List.range 130)

/-- Claim C6: in every loop iteration the forward pass reads exactly the
current batch's images, the loss is computed from exactly those predictions
and the current batch's targets, and the backpropagated gradients are of
exactly that loss; no event of the iteration refers to any earlier batch. -/
theorem per_batch_data_flow {freq : Int} (hf : 1 ≤ freq) (step : Nat) (g0 : List Nat) :
    ∃ evs g, loopBody freq step g0 = (evs, g, none) ∧
      Ev.forward step ∈ evs ∧ Ev.lossOf step step ∈ evs ∧ Ev.backward step ∈ evs ∧
      (∀ i, Ev.forward i ∈ evs → i = step) ∧
      (∀ p t, Ev.lossOf p t ∈ evs → p = step ∧ t = step) ∧
      ∀ l, Ev.backward l ∈ evs → l = step := by
  refine ⟨iterEvents freq step, [step], loopBody_ok (by omega) step g0, ?_, ?_, ?_, ?_, ?_, ?_⟩ <;>
    unfold iterEvents <;> split_ifs <;> simp

/-- Claim C6, witness at frequency 10, step 3. -/
theorem per_batch_data_flow_witness :
    ∃ evs g, loopBody 10 3 [] = (evs, g, none) ∧
      Ev.forward 3 ∈ evs ∧ Ev.lossOf 3 3 ∈ evs ∧ Ev.backward 3 ∈ evs ∧
      (∀ i, Ev.forward i ∈ evs → i = 3) ∧
      (∀ p t, Ev.lossOf p t ∈ evs → p = 3 ∧ t = 3) ∧
      ∀ l, Ev.backward l ∈ evs → l = 3 :=
  per_batch_data_flow (by norm_num) 3 []

/-- Claim C7: before the training loop starts, `main` constructs the dataset,
the model, the loss, the optimizer and the dataloader, in that order, with the
configured parameters; the rest of the run constructs nothing, so each of the
five components is constructed exactly once per invocation. -/
theorem components_constructed_once_in_order (cfg : AppConfig) (ds : List Nat) :
    ∃ rest, (mainTrace cfg ds).1 = setupEvents cfg ++ rest ∧
      (∀ e ∈ rest, e.isSetup = false) ∧
      (mainTrace cfg ds).1.filter Ev.isSetup = setupEvents cfg := by
  refine ⟨(runSteps cfg.freq (dataLoaderBatches cfg.dataloader.batch_size ds).length []).1,
    ?_, runSteps_no_setup _ _ _, ?_⟩
  · rw [mainTrace_eq]
  · rw [mainTrace_eq]
    show (setupEvents cfg ++ _).filter Ev.isSetup = _
    rw [List.filter_append]
    have h1 : (setupEvents cfg).filter Ev.isSetup = setupEvents cfg := rfl
    have h2 : ((runSteps cfg.freq (dataLoaderBatches cfg.dataloader.batch_size ds).length []).1).filter
        Ev.isSetup = [] := by
      rw [List.filter_eq_nil_iff]
      intro e he
      simp [runSteps_no_setup _ _ _ e he]
    rw [h1, h2, List.append_nil]

/-- Claim C8: with display frequency 0, `main` logs no status and dies with a
`ZeroDivisionError` at the status-print guard of the very first iteration:
the gradient reset, forward pass and loss computation of that batch have
already run, but no backpropagation or parameter update ever occurs. -/
theorem freq_zero_zero_division (cfg : AppConfig) (ds : List Nat)
    (hf : cfg.freq = 0) (hds : ds ≠ []) :
    ∃ evs, mainTrace cfg ds = (evs, some PyErr.zeroDivisionError) ∧
      (∀ s l, Ev.logStep s l ∉ evs) ∧ (∀ l, Ev.backward l ∉ evs) ∧
      (∀ gs, Ev.optStep gs ∉ evs) ∧
      Ev.zeroGrad 0 ∈ evs ∧ Ev.forward 0 ∈ evs ∧ Ev.lossOf 0 0 ∈ evs := by
  have hn : 1 ≤ (dataLoaderBatches cfg.dataloader.batch_size ds).length :=
    List.length_pos.mpr
      (batchesAux_ne_nil cfg.dataloader.batch_size ds.length ds hds (List.length_pos.mpr hds))
  refine ⟨setupEvents cfg ++ [Ev.zeroGrad 0, Ev.forward 0, Ev.lossOf 0 0],
    ?_, ?_, ?_, ?_, ?_, ?_, ?_⟩
  · rw [mainTrace_eq, hf, runSteps_err [] _ hn]
  all_goals simp [setupEvents]

/-- Claim C8, witness at a config with frequency 0 on a 1-sample dataset. -/
theorem freq_zero_zero_division_witness :
    ∃ evs, mainTrace { freq := 0 } [0] = (evs, some PyErr.zeroDivisionError) ∧
      (∀ s l, Ev.logStep s l ∉ evs) ∧ (∀ l, Ev.backward l ∉ evs) ∧
      (∀ gs, Ev.optStep gs ∉ evs) ∧
      Ev.zeroGrad 0 ∈ evs ∧ Ev.forward 0 ∈ evs ∧ Ev.lossOf 0 0 ∈ evs :=
  freq_zero_zero_division { freq := 0 } [0] rfl (by simp)

/-- Claim C9: every loop iteration starts by resetting the optimizer's
gradients, and whatever gradients were left from earlier batches, the
parameter update of the iteration uses exactly (and only) the gradients of the
current batch's loss. -/
theorem gradients_reset_each_iteration {freq : Int} (hf : 1 ≤ freq) (step : Nat) (g0 : List Nat) :
    ∃ evs, loopBody freq step g0 = (evs, [step], none) ∧
      evs.head? = some (Ev.zeroGrad step) ∧
      Ev.optStep [step] ∈ evs ∧
      ∀ gs, Ev.optStep gs ∈ evs → gs = [step] := by
  refine ⟨iterEvents freq step, loopBody_ok (by omega) step g0, rfl, ?_, ?_⟩ <;>
    unfold iterEvents <;> split_ifs <;> simp

/-- Claim C9, witness at frequency 10, step 7, entered with stale gradients
from batches 3 and 5. -/
theorem gradients_reset_each_iteration_witness :
    ∃ evs, loopBody 10 7 [3, 5] = (evs, [7], none) ∧
      evs.head? = some (Ev.zeroGrad 7) ∧
      Ev.optStep [7] ∈ evs ∧
      ∀ gs, Ev.optStep gs ∈ evs → gs = [7] :=
  gradients_reset_each_iteration (by norm_num) 7 [3, 5]

/-- Claim C10: with no overrides, the application runs with dataset images of
width 32 and height 32, batch size 128 with shuffling enabled, learning rate
one thousandth, and display frequency 10, and `main` constructs its components
from exactly these values. -/
theorem default_configuration :
    ({} : AppConfig).dataset.width = 32 ∧ ({} : AppConfig).dataset.height = 32 ∧
    ({} : AppConfig).dataloader.batch_size = 128 ∧ ({} : AppConfig).dataloader.shuffle = true ∧
    ({} : AppConfig).lr = 1 / 1000 ∧ ({} : AppConfig).freq = 10 ∧
    ∀ ds : List Nat, (mainTrace {} ds).1.take 5 =
      [Ev.mkDataset 32 32, Ev.mkModel, Ev.mkLoss, Ev.mkOptimizer (1 / 1000),
       Ev.mkDataLoader 128 true] := by
  refine ⟨rfl, rfl, rfl, rfl, ?_, rfl, ?_⟩
  · show (0.001 : ℚ) = 1 / 1000
    norm_num
  · intro ds
    rw [mainTrace_eq]
    show (setupEvents {} ++ _).take 5 = _
    norm_num [setupEvents]
